import Mathlib

/-!
Verification development for the F1 LED circuit simulation
(`src/main.rs`, `src/led_coords.rs`, `src/driver_info.rs`).

Shallow embedding conventions:
* `f64` values are modelled as exact rationals (`ℚ`).  No claim below depends
  on floating-point rounding; the source compares Euclidean distances computed
  with `sqrt`, and since `sqrt` is strictly monotone on nonnegative reals the
  comparisons coincide with comparisons of squared distances, which we model
  exactly over `ℚ`.
* `DateTime<Utc>` values are modelled as integer UTC timestamps in
  milliseconds (`Int`); `(d1 - d2).num_milliseconds()` becomes `d1 - d2`.
* `HashMap` values are modelled as association lists with insert-or-replace
  semantics.  The iteration order of a Rust `std::collections::HashMap` is
  unspecified, so every loop that iterates over a `HashMap` is modelled by an
  explicit iteration-order parameter constrained (in the theorems) to be a
  permutation of the map's entries.
* Byte buffers are modelled as `List Char`.  The source converts the buffer
  with `String::from_utf8_lossy`, which is the identity on well-formed UTF-8
  (all inputs considered here are ASCII).
* `serde_json::from_str::<LocationData>` / `from_slice` is external library
  code; the decoder is parameterised over an abstract parse function
  `parse : List Char → Option LocationData`.  A concrete model `parseLocC`
  of the canonical serialization is provided for witnesses.
* `Instant::now()` and the async channels are omitted: no claim mentions the
  wall-clock reference or the channel plumbing.
-/

/-- `LocationData` from `src/main.rs` (the decoded telemetry record). -/
structure LocationData where
  x : ℚ
  y : ℚ
  z : ℚ
  driver_number : Nat
  date : Int
  session_key : Nat
  meeting_key : Nat
deriving DecidableEq, Repr

/-- `LedCoordinate` from `src/main.rs` / `src/led_coords.rs`. -/
structure LedCoordinate where
  x_led : ℚ
  y_led : ℚ
deriving DecidableEq, Repr

/-- `RunRace` from `src/main.rs` (a mapped event). -/
structure RunRace where
  date : Int
  driver_number : Nat
  x_led : ℚ
  y_led : ℚ
deriving DecidableEq, Repr

/-- `egui::Color32` restricted to the `from_rgb` constructor used in the source. -/
structure Color32 where
  r : Nat
  g : Nat
  b : Nat
deriving DecidableEq, Repr

/-- `DriverInfo` from `src/main.rs`. -/
structure DriverInfo where
  number : Nat
  name : String
  team : String
  color : Color32
deriving DecidableEq, Repr

set_option maxHeartbeats 1000000 in
/-- `PlotApp` from `src/main.rs`.  `start_time` (an `Instant`) and the two
async-channel endpoints are omitted; no claim observes them. -/
structure PlotApp where
  coordinates : List LedCoordinate
  run_race_data : List RunRace
  race_time : ℚ
  race_started : Bool
  data_loading_started : Bool
  data_loaded : Bool
  driver_info : List DriverInfo
  current_index : Nat
  led_states : List ((Int × Int) × Color32)
  last_positions : List (Nat × (Int × Int))
  speed : Int
deriving DecidableEq

set_option maxHeartbeats 2000000 in
/-- The fixed coordinate list returned by `read_coordinates` in
`src/main.rs` (lines 341-440); `src/led_coords.rs` contains the
character-for-character identical list. -/
def led_coordinate_list : List LedCoordinate := [
    ⟨6413, 33⟩, ⟨6007, 197⟩, ⟨5652, 444⟩, ⟨5431, 822⟩, ⟨5727, 1143⟩, ⟨6141, 1268⟩,
    ⟨6567, 1355⟩, ⟨6975, 1482⟩, ⟨7328, 1738⟩, ⟨7369, 2173⟩, ⟨7024, 2448⟩, ⟨6592, 2505⟩,
    ⟨6159, 2530⟩, ⟨5725, 2525⟩, ⟨5288, 2489⟩, ⟨4857, 2434⟩, ⟨4429, 2356⟩, ⟨4004, 2249⟩,
    ⟨3592, 2122⟩, ⟨3181, 1977⟩, ⟨2779, 1812⟩, ⟨2387, 1624⟩, ⟨1988, 1453⟩, ⟨1703, 1779⟩,
    ⟨1271, 1738⟩, ⟨1189, 1314⟩, ⟨1257, 884⟩, ⟨1333, 454⟩, ⟨1409, 25⟩, ⟨1485, -405⟩,
    ⟨1558, -835⟩, ⟨1537, -1267⟩, ⟨1208, -1555⟩, ⟨779, -1606⟩, ⟨344, -1604⟩, ⟨-88, -1539⟩,
    ⟨-482, -1346⟩, ⟨-785, -1038⟩, ⟨-966, -644⟩, ⟨-1015, -206⟩, ⟨-923, 231⟩, ⟨-762, 650⟩,
    ⟨-591, 1078⟩, ⟨-423, 1497⟩, ⟨-254, 1915⟩, ⟨-86, 2329⟩, ⟨83, 2744⟩, ⟨251, 3158⟩,
    ⟨416, 3574⟩, ⟨588, 3990⟩, ⟨755, 4396⟩, ⟨920, 4804⟩, ⟨1086, 5212⟩, ⟨1250, 5615⟩,
    ⟨1418, 6017⟩, ⟨1583, 6419⟩, ⟨1909, 6702⟩, ⟨2306, 6512⟩, ⟨2319, 6071⟩, ⟨2152, 5660⟩,
    ⟨1988, 5255⟩, ⟨1853, 4836⟩, ⟨1784, 4407⟩, ⟨1779, 3971⟩, ⟨1605, 3569⟩, ⟨1211, 3375⟩,
    ⟨811, 3188⟩, ⟨710, 2755⟩, ⟨1116, 2595⟩, ⟨1529, 2717⟩, ⟨1947, 2848⟩, ⟨2371, 2946⟩,
    ⟨2806, 2989⟩, ⟨3239, 2946⟩, ⟨3665, 2864⟩, ⟨4092, 2791⟩, ⟨4523, 2772⟩, ⟨4945, 2886⟩,
    ⟨5331, 3087⟩, ⟨5703, 3315⟩, ⟨6105, 3484⟩, ⟨6538, 3545⟩, ⟨6969, 3536⟩, ⟨7402, 3511⟩,
    ⟨7831, 3476⟩, ⟨8241, 3335⟩, ⟨8549, 3025⟩, ⟨8703, 2612⟩, ⟨8662, 2173⟩, ⟨8451, 1785⟩,
    ⟨8203, 1426⟩, ⟨7973, 1053⟩, ⟨7777, 664⟩, ⟨7581, 275⟩, ⟨7274, -35⟩, ⟨6839, -46⟩]

/-- `read_coordinates` from `src/main.rs`: infallible, always `Ok` of the
fixed list. -/
def read_coordinates : Except String (List LedCoordinate) :=
  Except.ok led_coordinate_list

/-- The `driver_info` vector built in `main` (`src/main.rs` lines 582-603). -/
def driver_info_list : List DriverInfo := [
    ⟨1, "Max Verstappen", "Red Bull", ⟨30, 65, 255⟩⟩,
    ⟨2, "Logan Sargeant", "Williams", ⟨0, 82, 255⟩⟩,
    ⟨4, "Lando Norris", "McLaren", ⟨255, 135, 0⟩⟩,
    ⟨10, "Pierre Gasly", "Alpine", ⟨2, 144, 240⟩⟩,
    ⟨11, "Sergio Perez", "Red Bull", ⟨30, 65, 255⟩⟩,
    ⟨14, "Fernando Alonso", "Aston Martin", ⟨0, 110, 120⟩⟩,
    ⟨16, "Charles Leclerc", "Ferrari", ⟨220, 0, 0⟩⟩,
    ⟨18, "Lance Stroll", "Aston Martin", ⟨0, 110, 120⟩⟩,
    ⟨20, "Kevin Magnussen", "Haas", ⟨160, 207, 205⟩⟩,
    ⟨22, "Yuki Tsunoda", "AlphaTauri", ⟨60, 130, 200⟩⟩,
    ⟨23, "Alex Albon", "Williams", ⟨0, 82, 255⟩⟩,
    ⟨24, "Zhou Guanyu", "Stake F1", ⟨165, 160, 155⟩⟩,
    ⟨27, "Nico Hulkenberg", "Haas", ⟨160, 207, 205⟩⟩,
    ⟨31, "Esteban Ocon", "Alpine", ⟨2, 144, 240⟩⟩,
    ⟨40, "Liam Lawson", "AlphaTauri", ⟨60, 130, 200⟩⟩,
    ⟨44, "Lewis Hamilton", "Mercedes", ⟨0, 210, 190⟩⟩,
    ⟨55, "Carlos Sainz", "Ferrari", ⟨220, 0, 0⟩⟩,
    ⟨63, "George Russell", "Mercedes", ⟨0, 210, 190⟩⟩,
    ⟨77, "Valtteri Bottas", "Stake F1", ⟨165, 160, 155⟩⟩,
    ⟨81, "Oscar Piastri", "McLaren", ⟨255, 135, 0⟩⟩]

/-- Squared Euclidean distance between a telemetry sample and a fixed
coordinate.  The source computes
`((data.x - coord.x_led).powi(2) + (data.y - coord.y_led).powi(2)).sqrt()`;
`sqrt` is strictly monotone, so all comparisons made by `min_by` coincide
with comparisons of this exact squared distance. -/
def distSq (d : LocationData) (c : LedCoordinate) : ℚ :=
  (d.x - c.x_led) ^ 2 + (d.y - c.y_led) ^ 2

/-- `Iterator::min_by` over a nonempty iterator `c :: cs`, with the comparator
`dist_a.partial_cmp(dist_b).unwrap_or(Equal)`: the accumulator is replaced
only when the candidate is strictly smaller, so the first minimum wins
(ties keep the earlier element). -/
def minByDist (d : LocationData) (c : LedCoordinate) (cs : List LedCoordinate) : LedCoordinate :=
  cs.foldl (fun acc y => if distSq d y < distSq d acc then y else acc) c

/-- The nearest-coordinate computation inside `generate_run_race_data`
(`src/main.rs` lines 449-461).  `none` corresponds to the `.unwrap()` panic
on an empty coordinate iterator. -/
def nearest_coord (d : LocationData) : List LedCoordinate → Option LedCoordinate
  | [] => none
  | c :: cs => some (minByDist d c cs)

/-- `generate_run_race_data` from `src/main.rs` (lines 442-471).  The
`.unwrap()` of `min_by` is modelled by the `Option`: `none` means the source
would panic (empty coordinate set). -/
def generate_run_race_data (raw : List LocationData) (coordinates : List LedCoordinate) :
    Option (List RunRace) :=
  raw.mapM (fun d => (nearest_coord d coordinates).map
    (fun c => ⟨d.date, d.driver_number, c.x_led, c.y_led⟩))

/-- `generate_run_race_data(&[loc], coords)` as used by `process_chunk`: a
one-element input slice.  On an empty coordinate set the source panics
(unreachable in this program, see `c9_read_coordinates_nonempty`); that case
is modelled as an empty emission. -/
def generate_one (d : LocationData) (coordinates : List LedCoordinate) : List RunRace :=
  match nearest_coord d coordinates with
  | some c => [⟨d.date, d.driver_number, c.x_led, c.y_led⟩]
  | none => []

/-- `PlotApp::scale_f64` (`src/main.rs` lines 168-170):
`(value * scale as f64) as i64`, i.e. the product truncated toward zero.
For `value = num/den` (reduced) the product is `(num * scale) / den`, and
truncation toward zero divides the magnitude and reattaches the sign; this
avoids rational normalisation, which Lean's kernel cannot evaluate. -/
def scale_f64 (value : ℚ) (scale : Int) : Int :=
  Int.sign (value.num * scale) * (((value.num * scale).natAbs / value.den : Nat) : Int)

/-- `HashMap::insert` on an association list: replace the value of an
existing key in place, otherwise append the new binding. -/
def insertA {α β : Type} [DecidableEq α] : List (α × β) → α → β → List (α × β)
  | [], k, v => [(k, v)]
  | (k', v') :: t, k, v => if k' = k then (k, v) :: t else (k', v') :: insertA t k v

/-- `HashMap` lookup on an association list. -/
def lookupA {α β : Type} [DecidableEq α] : List (α × β) → α → Option β
  | [], _ => none
  | (k', v') :: t, k => if k' = k then some v' else lookupA t k

/-- `PlotApp::reset` (`src/main.rs` lines 91-98).  `start_time` is not part
of the model (it is reset to `Instant::now()` and is not an observable of
any claim). -/
def PlotApp.reset (app : PlotApp) : PlotApp :=
  { app with
    race_time := 0
    race_started := false
    current_index := 0
    led_states := []
    last_positions := [] }

/-- The driver-colour lookup inside `update_led_states`:
`driver_info.iter().find(..).map_or(Color32::WHITE, |driver| driver.color)`. -/
def color_for (info : List DriverInfo) (driver_number : Nat) : Color32 :=
  match info.find? (fun d => d.number == driver_number) with
  | some d => d.color
  | none => ⟨255, 255, 255⟩

/-- The first loop of `update_led_states`: fold the due prefix
`run_race_data[..current_index]`, recording each driver's scaled coordinate
as its last known position. -/
def fold_positions (data : List RunRace) (idx : Nat) (lp : List (Nat × (Int × Int))) :
    List (Nat × (Int × Int)) :=
  (data.take idx).foldl
    (fun m rd => insertA m rd.driver_number
      (scale_f64 rd.x_led 1000000, scale_f64 rd.y_led 1000000)) lp

/-- `PlotApp::update_led_states` (`src/main.rs` lines 122-156).  `iter` is the
iteration order of the `HashMap` `last_positions` in the second loop; Rust
leaves it unspecified, so it is an explicit parameter that theorems constrain
to be a permutation of the map's entries.  `led_states` is cleared first, so
the second fold starts from `[]`. -/
def PlotApp.update_led_states (app : PlotApp) (iter : List (Nat × (Int × Int))) : PlotApp :=
  let lp := fold_positions app.run_race_data app.current_index app.last_positions
  let led := iter.foldl
    (fun m e => insertA m e.2 (color_for app.driver_info e.1))
    ([] : List ((Int × Int) × Color32))
  { app with last_positions := lp, led_states := led }

/-- `PlotApp::update_with_data` (`src/main.rs` lines 172-175):
`extend` then `sort_by_key(|d| Reverse(d.date))`.  Rust's slice sort is a
stable merge sort; sorting by `Reverse(date)` means descending by `date`. -/
def PlotApp.update_with_data (app : PlotApp) (data : List RunRace) : PlotApp :=
  { app with
    run_race_data :=
      (app.run_race_data ++ data).mergeSort (fun a b => decide (b.date ≤ a.date)) }

/-- `race_data_time` computed in the `update_race` loop:
`(run_data.date - run_race_data[0].date).num_milliseconds() as f64 / 1000.0`.
Only evaluated for indices inside the list (the loop guard). -/
def race_data_time (data : List RunRace) (j : Nat) : ℚ :=
  ((((data[j]?).map RunRace.date).getD 0 - ((data[0]?).map RunRace.date).getD 0 : Int) : ℚ) / 1000

/-- The `while` loop of `PlotApp::update_race` (`src/main.rs` lines 105-115):
advance the index while the event at `next_index` is due. -/
def advance_index (data : List RunRace) (race_time : ℚ) (i : Nat) : Nat :=
  if h : i < data.length then
    if race_data_time data i ≤ race_time then advance_index data race_time (i + 1) else i
  else i
termination_by data.length - i

/-- `PlotApp::update_race` (`src/main.rs` lines 100-120).  `elapsed` is the
wall-clock `start_time.elapsed().as_secs_f64()`; `iter` is passed through to
`update_led_states`. -/
def PlotApp.update_race (app : PlotApp) (elapsed : ℚ) (iter : List (Nat × (Int × Int))) :
    PlotApp :=
  if app.race_started then
    let rt := elapsed * (app.speed : ℚ)
    let ni := advance_index app.run_race_data rt app.current_index
    PlotApp.update_led_states { app with race_time := rt, current_index := ni } iter
  else app

/-- Does the buffer begin with the boundary marker between adjacent
serialized objects (the literal three characters brace-comma-brace searched
for by `buffer_str[start_pos..].find("},{")`)? -/
def isMarkerAt : List Char → Bool
  | a :: b :: c :: _ => a == '}' && b == ',' && c == '{'
  | _ => false

/-- Index of the first occurrence of the boundary marker, as returned by
`str::find("},{")`. -/
def findMarker : List Char → Option Nat
  | [] => none
  | c :: t => if isMarkerAt (c :: t) then some 0 else (findMarker t).map (· + 1)

/-- Drop every leading occurrence of a character (`str::trim_start_matches`). -/
def dropLeading (c : Char) : List Char → List Char
  | [] => []
  | x :: t => if x = c then dropLeading c t else x :: t

/-- `trim_start_matches('[')`. -/
def trimStartBracket (l : List Char) : List Char := dropLeading '[' l

/-- `trim_end_matches(']')`. -/
def trimEndBracket (l : List Char) : List Char := (dropLeading ']' l.reverse).reverse

/-- The candidate slice handed to `serde_json::from_str` for a marker found
at relative index `e` from scan position `p` (`src/main.rs` lines 501-516):
take the slice up to and including the closing brace, strip array brackets,
and if the result does not start with an opening brace either borrow the
preceding byte (`p > 0`) or synthesize an opening brace (`p = 0`). -/
def candidate_slice (s : List Char) (p e : Nat) : List Char :=
  let slice := (s.drop p).take (e + 1)
  let slice2 := trimEndBracket (trimStartBracket slice)
  if slice2.head? = some '{' then slice2
  else if 0 < p then (s.drop (p - 1)).take (e + 2)
  else '{' :: slice2

theorem isMarkerAt_length {l : List Char} (h : isMarkerAt l = true) : 3 ≤ l.length := by
  match l with
  | [] => simp [isMarkerAt] at h
  | [a] => simp [isMarkerAt] at h
  | [a, b] => simp [isMarkerAt] at h
  | a :: b :: c :: r => simp

theorem findMarker_length {l : List Char} {e : Nat} (h : findMarker l = some e) :
    e + 3 ≤ l.length := by
  induction l generalizing e with
  | nil => simp [findMarker] at h
  | cons c t ih =>
    rw [findMarker] at h
    by_cases hm : isMarkerAt (c :: t)
    · simp only [hm, if_true] at h
      cases h
      exact isMarkerAt_length hm
    · simp only [hm, if_false, Bool.false_eq_true, Option.map_eq_some'] at h
      obtain ⟨e', he', rfl⟩ := h
      have := ih he'
      simp only [List.length_cons]
      omega

/-- The scan loop of `process_chunk` (`src/main.rs` lines 499-539).
`parse` models `serde_json::from_str::<LocationData>`, `p` is `start_pos`,
`rows` is `rows_processed`, `acc` is the accumulated `run_race_data`.
Returns the emitted records and the final `start_pos`. -/
def scan (parse : List Char → Option LocationData) (coords : List LedCoordinate)
    (maxRows : Nat) (s : List Char) (p rows : Nat) (acc : List RunRace) :
    List RunRace × Nat :=
  match hm : findMarker (s.drop p) with
  | none => (acc, p)
  | some e =>
    match parse (candidate_slice s p e) with
    | none => (acc, p)
    | some loc =>
      let nw := generate_one loc coords
      let rows' := rows + nw.length
      let acc' := acc ++ nw
      if maxRows ≤ rows' then (acc', p + e + 3)
      else scan parse coords maxRows s (p + e + 3) rows' acc'
termination_by s.length - p
decreasing_by
  have h1 := findMarker_length hm
  have h2 : (s.drop p).length = s.length - p := List.length_drop p s
  omega

/-- `process_chunk` (`src/main.rs` lines 481-552) for one call: append the
chunk to the retained buffer, run the scan loop, then try to parse the whole
remainder as a single trailing object; on success emit it and clear the
buffer, otherwise retain the remainder.  The function is total — the Rust
body contains no fallible operation and always returns `Ok`. -/
def process_chunk (parse : List Char → Option LocationData) (coords : List LedCoordinate)
    (maxRows : Nat) (buffer chunk : List Char) : List RunRace × List Char :=
  let s := buffer ++ chunk
  let r := scan parse coords maxRows s 0 0 []
  let rem := s.drop r.2
  match parse rem with
  | some loc => (r.1 ++ generate_one loc coords, [])
  | none => (r.1, rem)

/-- Feed a sequence of fragments through `process_chunk`, threading the
retained buffer between calls and concatenating the emissions (the
per-driver decode loop of `load_data`, `src/main.rs` lines 196-205). -/
def feed_fragments (parse : List Char → Option LocationData) (coords : List LedCoordinate)
    (maxRows : Nat) : List Char → List (List Char) → List RunRace × List Char
  | buffer, [] => ([], buffer)
  | buffer, c :: rest =>
    let r := process_chunk parse coords maxRows buffer c
    let r2 := feed_fragments parse coords maxRows r.2 rest
    (r.1 ++ r2.1, r2.2)

/-! ### A concrete model of `serde_json::from_str::<LocationData>`

`serde_json` and `chrono` are external libraries.  `parseLocC` below parses
the canonical compact serialization of a `LocationData` (fields in struct
order, no whitespace), rejecting anything else — in particular any input not
starting with an opening brace (such as a slice still carrying the array's
leading bracket) and any truncated record.  Modelled from the spec: the
`date` field is an RFC-3339 string parsed by the external `chrono` library;
dates are modelled as integer UTC millisecond timestamps written as quoted
integers. -/

/-- Parse a nonempty run of decimal digits. -/
def pDigits (s : List Char) : Option (Nat × List Char) :=
  let ds := s.takeWhile Char.isDigit
  if ds.isEmpty then none
  else some (ds.foldl (fun n c => n * 10 + (c.toNat - 48)) 0, s.drop ds.length)

/-- Parse an optionally signed decimal integer. -/
def pIntD (s : List Char) : Option (Int × List Char) :=
  match s with
  | '-' :: t => (pDigits t).map (fun r => (-(r.1 : Int), r.2))
  | _ => (pDigits s).map (fun r => ((r.1 : Int), r.2))

/-- An integer as a rational, built directly (denominator 1) so that the
kernel can evaluate it. -/
def qOfInt (i : Int) : ℚ := ⟨i, 1, Nat.one_ne_zero, Nat.coprime_one_right _⟩

/-- Parse a JSON number.  The model restricts numbers to integer values
(fraction parsing belongs to the external float parser); `serde_json`
accepts integer literals for `f64` fields. -/
def pRat (s : List Char) : Option (ℚ × List Char) :=
  (pIntD s).map (fun r => (qOfInt r.1, r.2))

/-- Expect a literal character sequence and drop it. -/
def pLit (pat s : List Char) : Option (List Char) :=
  if pat.isPrefixOf s then some (s.drop pat.length) else none

/-- Parse the quoted date field (modelled, see section comment). -/
def pDateStr (s : List Char) : Option (Int × List Char) :=
  match s with
  | '"' :: t =>
    match pIntD t with
    | some (v, rest) =>
      match rest with
      | '"' :: r2 => some (v, r2)
      | _ => none
    | none => none
  | _ => none

/-- Concrete model of `serde_json::from_str::<LocationData>` on the canonical
compact serialization (see section comment). -/
def parseLocC (s : List Char) : Option LocationData := do
  let t0 ← pLit ('{' :: "\"x\":".toList) s
  let (x, t1) ← pRat t0
  let t1b ← pLit ",\"y\":".toList t1
  let (y, t2) ← pRat t1b
  let t2b ← pLit ",\"z\":".toList t2
  let (z, t3) ← pRat t2b
  let t3b ← pLit ",\"driver_number\":".toList t3
  let (dn, t4) ← pDigits t3b
  let t4b ← pLit ",\"date\":".toList t4
  let (dt, t5) ← pDateStr t4b
  let t5b ← pLit ",\"session_key\":".toList t5
  let (sk, t6) ← pDigits t5b
  let t6b ← pLit ",\"meeting_key\":".toList t6
  let (mk, t7) ← pDigits t6b
  if t7 = ['}'] then some ⟨x, y, z, dn, dt, sk, mk⟩ else none

/-! ### Helper lemmas -/

theorem scan_stop_no_marker (parse : List Char → Option LocationData)
    (coords : List LedCoordinate) (maxRows : Nat) (s : List Char) (p rows : Nat)
    (acc : List RunRace) (h : findMarker (s.drop p) = none) :
    scan parse coords maxRows s p rows acc = (acc, p) := by
  rw [scan.eq_def]
  split
  · rfl
  · rename_i e heq
    rw [h] at heq
    cases heq

theorem scan_stop_parse_failure (parse : List Char → Option LocationData)
    (coords : List LedCoordinate) (maxRows : Nat) (s : List Char) (p rows : Nat)
    (acc : List RunRace) (e : Nat) (h : findMarker (s.drop p) = some e)
    (hp : parse (candidate_slice s p e) = none) :
    scan parse coords maxRows s p rows acc = (acc, p) := by
  rw [scan.eq_def]
  split
  · rfl
  · rename_i e' heq
    rw [h] at heq
    cases heq
    rw [hp]

theorem scan_step (parse : List Char → Option LocationData)
    (coords : List LedCoordinate) (maxRows : Nat) (s : List Char) (p rows : Nat)
    (acc : List RunRace) (e : Nat) (loc : LocationData)
    (h : findMarker (s.drop p) = some e)
    (hp : parse (candidate_slice s p e) = some loc)
    (hr : rows + (generate_one loc coords).length < maxRows) :
    scan parse coords maxRows s p rows acc =
      scan parse coords maxRows s (p + e + 3) (rows + (generate_one loc coords).length)
        (acc ++ generate_one loc coords) := by
  rw [scan.eq_def]
  split
  · rename_i heq
    rw [h] at heq
    cases heq
  · rename_i e' heq
    rw [h] at heq
    cases heq
    rw [hp]
    simp only []
    rw [if_neg (by omega)]

theorem mapM_option_isSome {α β : Type} (f : α → Option β)
    (h : ∀ a, (f a).isSome) (l : List α) : (l.mapM f).isSome := by
  induction l with
  | nil => rfl
  | cons a t ih =>
    obtain ⟨b, hb⟩ := Option.isSome_iff_exists.mp (h a)
    obtain ⟨bs, hbs⟩ := Option.isSome_iff_exists.mp ih
    rw [List.mapM_cons, hb, hbs]
    rfl

theorem generate_run_race_data_isSome (raw : List LocationData)
    (coords : List LedCoordinate) (h : coords ≠ []) :
    (generate_run_race_data raw coords).isSome := by
  match coords, h with
  | c :: cs, _ =>
    exact mapM_option_isSome _ (fun d => by simp [nearest_coord]) raw

/-- C8: invoking Stop/Reset when the application is already in the
post-reset (Idle) state changes nothing: `reset` is idempotent, and the
reset state has empty `led_states` (active map), empty `last_positions`,
cursor `current_index = 0` and `race_time = 0`. -/
theorem c8_reset_idempotent (app : PlotApp) :
    (app.reset).reset = app.reset ∧
    (app.reset).led_states = [] ∧
    (app.reset).last_positions = [] ∧
    (app.reset).current_index = 0 ∧
    (app.reset).race_time = 0 ∧
    (app.reset).race_started = false :=
  ⟨rfl, rfl, rfl, rfl, rfl, rfl⟩

/-- C9: `read_coordinates` is infallible and returns the fixed list of
exactly 96 coordinates, which is nonempty, so `generate_run_race_data`
(whose `none` case is the `min_by(..).unwrap()` panic on an empty
coordinate iterator) succeeds on every telemetry input. -/
theorem c9_read_coordinates_96 :
    read_coordinates = Except.ok led_coordinate_list ∧
    led_coordinate_list.length = 96 ∧
    led_coordinate_list ≠ [] ∧
    ∀ raw : List LocationData, (generate_run_race_data raw led_coordinate_list).isSome :=
  ⟨rfl, by decide, by decide,
    fun raw => generate_run_race_data_isSome raw led_coordinate_list (by decide)⟩

theorem advance_index_ge (data : List RunRace) (t : ℚ) (i : Nat) :
    i ≤ advance_index data t i := by
  rw [advance_index]
  split
  · split
    · have h := advance_index_ge data t (i + 1)
      omega
    · exact Nat.le_refl i
  · exact Nat.le_refl i
termination_by data.length - i
decreasing_by omega

theorem advance_index_le_length (data : List RunRace) (t : ℚ) (i : Nat)
    (h : i ≤ data.length) : advance_index data t i ≤ data.length := by
  rw [advance_index]
  split
  · split
    · exact advance_index_le_length data t (i + 1) (by omega)
    · exact h
  · exact h
termination_by data.length - i
decreasing_by omega

theorem update_led_states_run_race_data (app : PlotApp) (iter : List (Nat × (Int × Int))) :
    (app.update_led_states iter).run_race_data = app.run_race_data := rfl

theorem update_led_states_current_index (app : PlotApp) (iter : List (Nat × (Int × Int))) :
    (app.update_led_states iter).current_index = app.current_index := rfl

theorem update_race_run_race_data (app : PlotApp) (elapsed : ℚ)
    (iter : List (Nat × (Int × Int))) :
    (app.update_race elapsed iter).run_race_data = app.run_race_data := by
  rw [PlotApp.update_race]
  split <;> rfl

theorem update_race_index_ge (app : PlotApp) (elapsed : ℚ)
    (iter : List (Nat × (Int × Int))) :
    app.current_index ≤ (app.update_race elapsed iter).current_index := by
  rw [PlotApp.update_race]
  split
  · exact advance_index_ge _ _ _
  · exact Nat.le_refl _

theorem update_race_index_le (app : PlotApp) (elapsed : ℚ)
    (iter : List (Nat × (Int × Int)))
    (h : app.current_index ≤ app.run_race_data.length) :
    (app.update_race elapsed iter).current_index ≤
      (app.update_race elapsed iter).run_race_data.length := by
  rw [PlotApp.update_race]
  split
  · exact advance_index_le_length _ _ _ h
  · exact h

/-- C4: under any sequence of `update_race` ticks (each tick takes the
elapsed wall time and a `HashMap` iteration order), the cursor
`current_index` never decreases, never exceeds the timeline length, and the
timeline itself is untouched; it becomes 0 again only through the explicit
`reset`, which sets it to 0. -/
theorem c4_monotonic_bounded_cursor :
    (∀ (app : PlotApp) (elapsed : ℚ) (iter : List (Nat × (Int × Int))),
      app.current_index ≤ (app.update_race elapsed iter).current_index) ∧
    (∀ (app : PlotApp) (elapsed : ℚ) (iter : List (Nat × (Int × Int))),
      app.current_index ≤ app.run_race_data.length →
      (app.update_race elapsed iter).current_index ≤
        (app.update_race elapsed iter).run_race_data.length) ∧
    (∀ (app : PlotApp) (ticks : List (ℚ × List (Nat × (Int × Int)))),
      app.current_index ≤ app.run_race_data.length →
      app.current_index ≤
        (ticks.foldl (fun a s => a.update_race s.1 s.2) app).current_index ∧
      (ticks.foldl (fun a s => a.update_race s.1 s.2) app).current_index ≤
        app.run_race_data.length ∧
      (ticks.foldl (fun a s => a.update_race s.1 s.2) app).run_race_data =
        app.run_race_data) ∧
    (∀ app : PlotApp, (app.reset).current_index = 0) := by
  refine ⟨update_race_index_ge, update_race_index_le, ?_, fun _ => rfl⟩
  intro app ticks
  induction ticks generalizing app with
  | nil => exact fun h => ⟨Nat.le_refl _, h, rfl⟩
  | cons s rest ih =>
    intro h
    have h1 := update_race_index_ge app s.1 s.2
    have h2 := update_race_index_le app s.1 s.2 h
    have h3 := ih (app.update_race s.1 s.2) h2
    rw [update_race_run_race_data] at h3
    simp only [List.foldl_cons]
    exact ⟨Nat.le_trans h1 h3.1, h3.2.1, h3.2.2⟩

/-- Witness for C4 at a concrete state: two ticks with non-decreasing race
time on a one-event timeline. -/
theorem c4_witness :
    (let app : PlotApp :=
      ⟨[], [⟨0, 1, 5, 5⟩], 0, true, true, false, [], 0, [], [], 1⟩
     let final := [((0 : ℚ), ([] : List (Nat × (Int × Int)))), (1, [])].foldl
       (fun a s => a.update_race s.1 s.2) app
     app.current_index ≤ final.current_index ∧
     final.current_index ≤ app.run_race_data.length ∧
     final.run_race_data = app.run_race_data) := by
  have h := (c4_monotonic_bounded_cursor.2.2.1)
    ⟨[], [⟨0, 1, 5, 5⟩], 0, true, true, false, [], 0, [], [], 1⟩
    [((0 : ℚ), ([] : List (Nat × (Int × Int)))), (1, [])] (by decide)
  exact h

theorem date_le_trans (a b c : RunRace) :
    decide (b.date ≤ a.date) → decide (c.date ≤ b.date) → decide (c.date ≤ a.date) := by
  simp only [decide_eq_true_eq]
  omega

theorem date_le_total (a b : RunRace) :
    decide (b.date ≤ a.date) || decide (a.date ≤ b.date) := by
  simp only [Bool.or_eq_true, decide_eq_true_eq]
  omega

theorem update_with_data_perm (app : PlotApp) (data : List RunRace) :
    ((app.update_with_data data).run_race_data).Perm (app.run_race_data ++ data) :=
  List.mergeSort_perm _ _

theorem update_with_data_sorted_desc (app : PlotApp) (data : List RunRace) :
    List.Pairwise (fun a b : RunRace => b.date ≤ a.date)
      (app.update_with_data data).run_race_data := by
  have h := @List.sorted_mergeSort RunRace (fun a b : RunRace => decide (b.date ≤ a.date))
    (fun a b c => date_le_trans a b c) (fun a b => date_le_total a b)
    (app.run_race_data ++ data)
  exact h.imp (fun hab => by simpa using hab)

theorem update_with_data_stable (app : PlotApp) (data : List RunRace)
    (a b : RunRace) (hd : a.date = b.date)
    (hs : List.Sublist [a, b] (app.run_race_data ++ data)) :
    List.Sublist [a, b] (app.update_with_data data).run_race_data :=
  List.pair_sublist_mergeSort (fun a b c => date_le_trans a b c)
    (fun a b => date_le_total a b) (by simp [hd]) hs

/-- C2 counterexample: appending the two events with timestamps 0 and 1 to an
empty timeline yields a stored sequence that is NOT sorted ascending by
timestamp — `update_with_data` sorts by `Reverse(date)`, i.e. descending. -/
theorem c2_counterexample :
    ¬ List.Pairwise (fun a b : RunRace => a.date ≤ b.date)
      ((PlotApp.update_with_data ⟨[], [], 0, false, false, false, [], 0, [], [], 1⟩
        [⟨0, 1, 0, 0⟩, ⟨1, 2, 0, 0⟩]).run_race_data) := by
  intro hasc
  have hperm := update_with_data_perm
    ⟨[], [], 0, false, false, false, [], 0, [], [], 1⟩ [⟨0, 1, 0, 0⟩, ⟨1, 2, 0, 0⟩]
  have hdesc := update_with_data_sorted_desc
    ⟨[], [], 0, false, false, false, [], 0, [], [], 1⟩ [⟨0, 1, 0, 0⟩, ⟨1, 2, 0, 0⟩]
  have hlen := hperm.length_eq
  simp only [List.length_append, List.length_nil, List.length_cons] at hlen
  have hdates : (((PlotApp.update_with_data ⟨[], [], 0, false, false, false, [], 0, [], [], 1⟩
      [⟨0, 1, 0, 0⟩, ⟨1, 2, 0, 0⟩]).run_race_data).map RunRace.date).Perm [0, 1] :=
    hperm.map RunRace.date
  match hres : (PlotApp.update_with_data ⟨[], [], 0, false, false, false, [], 0, [], [], 1⟩
      [⟨0, 1, 0, 0⟩, ⟨1, 2, 0, 0⟩]).run_race_data, hlen with
  | [x, y], _ =>
    rw [hres] at hasc hdesc hdates
    have h1 : x.date ≤ y.date := (List.pairwise_cons.mp hasc).1 y (List.mem_singleton.mpr rfl)
    have h2 : y.date ≤ x.date := (List.pairwise_cons.mp hdesc).1 y (List.mem_singleton.mpr rfl)
    have hxy : x.date = y.date := le_antisymm h1 h2
    have h0 : (0 : Int) ∈ [x.date, y.date] := hdates.symm.mem_iff.mp (by simp)
    have h1' : (1 : Int) ∈ [x.date, y.date] := hdates.symm.mem_iff.mp (by simp)
    simp only [List.mem_cons, List.mem_singleton, List.not_mem_nil, or_false] at h0 h1'
    omega

/-- C2 (amended): after every `update_with_data`, the stored
`run_race_data` sequence is sorted by timestamp DESCENDING (the source sorts
by `Reverse(date)`), it is exactly a permutation of the previous contents
plus the appended events, and the sort is stable: two events with equal
timestamps keep their arrival order. -/
theorem c2_timeline_descending :
    (∀ (app : PlotApp) (data : List RunRace),
      List.Pairwise (fun a b : RunRace => b.date ≤ a.date)
        (app.update_with_data data).run_race_data) ∧
    (∀ (app : PlotApp) (data : List RunRace),
      ((app.update_with_data data).run_race_data).Perm (app.run_race_data ++ data)) ∧
    (∀ (app : PlotApp) (data : List RunRace) (a b : RunRace), a.date = b.date →
      List.Sublist [a, b] (app.run_race_data ++ data) →
      List.Sublist [a, b] (app.update_with_data data).run_race_data) :=
  ⟨update_with_data_sorted_desc, update_with_data_perm,
    fun app data a b hd hs => update_with_data_stable app data a b hd hs⟩

/-- Witness for C2 at a concrete state: two equal-timestamp events appended
to the empty timeline stay in arrival order. -/
theorem c2_witness :
    List.Sublist [(⟨5, 1, 0, 0⟩ : RunRace), ⟨5, 2, 0, 0⟩]
      ((PlotApp.update_with_data ⟨[], [], 0, false, false, false, [], 0, [], [], 1⟩
        [⟨5, 1, 0, 0⟩, ⟨5, 2, 0, 0⟩]).run_race_data) :=
  c2_timeline_descending.2.2
    ⟨[], [], 0, false, false, false, [], 0, [], [], 1⟩ [⟨5, 1, 0, 0⟩, ⟨5, 2, 0, 0⟩]
    ⟨5, 1, 0, 0⟩ ⟨5, 2, 0, 0⟩ rfl (List.Sublist.refl _)

theorem minByDist_spec (d : LocationData) :
    ∀ (cs : List LedCoordinate) (c : LedCoordinate),
      (∀ y ∈ c :: cs, distSq d (minByDist d c cs) ≤ distSq d y) ∧
      ∃ pre post, c :: cs = pre ++ (minByDist d c cs) :: post ∧
        ∀ z ∈ pre, distSq d (minByDist d c cs) < distSq d z := by
  intro cs
  induction cs with
  | nil =>
    intro c
    refine ⟨?_, [], [], rfl, by simp⟩
    intro y hy
    rcases List.mem_singleton.mp hy with rfl
    exact le_refl _
  | cons y t ih =>
    intro c
    have hstep : minByDist d c (y :: t) =
        minByDist d (if distSq d y < distSq d c then y else c) t := rfl
    by_cases hlt : distSq d y < distSq d c
    · rw [hstep, if_pos hlt]
      obtain ⟨hle, pre, post, hdec, hstrict⟩ := ih y
      have hminy : distSq d (minByDist d y t) ≤ distSq d y :=
        hle y (List.mem_cons_self _ _)
      refine ⟨?_, c :: pre, post, ?_, ?_⟩
      · intro z hz
        rcases List.mem_cons.mp hz with rfl | hz'
        · exact le_of_lt (lt_of_le_of_lt hminy hlt)
        · exact hle z hz'
      · rw [List.cons_append, ← hdec]
      · intro z hz
        rcases List.mem_cons.mp hz with rfl | hz'
        · exact lt_of_le_of_lt hminy hlt
        · exact hstrict z hz'
    · rw [hstep, if_neg hlt]
      obtain ⟨hle, pre, post, hdec, hstrict⟩ := ih c
      have hcy : distSq d c ≤ distSq d y := le_of_not_lt hlt
      have hminc : distSq d (minByDist d c t) ≤ distSq d c :=
        hle c (List.mem_cons_self _ _)
      refine ⟨?_, ?_⟩
      · intro z hz
        rcases List.mem_cons.mp hz with rfl | hz'
        · exact hminc
        · rcases List.mem_cons.mp hz' with rfl | hz''
          · exact le_trans hminc hcy
          · exact hle z (List.mem_cons_of_mem _ hz'')
      · cases pre with
        | nil =>
          simp only [List.nil_append] at hdec
          injection hdec with hc ht
          refine ⟨[], y :: t, ?_, by simp⟩
          simp only [List.nil_append]
          rw [← hc]
        | cons p0 ptail =>
          simp only [List.cons_append] at hdec
          injection hdec with hc ht
          have hcpre : distSq d (minByDist d c t) < distSq d c := by
            have h0 := hstrict p0 (List.mem_cons_self _ _)
            rw [← hc] at h0
            exact h0
          refine ⟨c :: y :: ptail, post, ?_, ?_⟩
          · conv_lhs => rw [ht]
            simp
          · intro z hz
            rcases List.mem_cons.mp hz with rfl | hz'
            · exact hcpre
            · rcases List.mem_cons.mp hz' with rfl | hz''
              · exact lt_of_lt_of_le hcpre hcy
              · exact hstrict z (List.mem_cons_of_mem _ hz'')

/-- C5: for a nonempty fixed coordinate set, the spatial mapping inside
`generate_run_race_data` returns the fixed coordinate minimising the
Euclidean distance (modelled by its square, which induces the same order);
every coordinate strictly earlier in the set's order has strictly larger
distance (so on ties the first occurrence wins); a raw coordinate equal to
some fixed coordinate is mapped at distance zero; and the produced
`RunRace` record carries exactly the chosen coordinate. -/
theorem c5_nearest_neighbor (d : LocationData) (coords : List LedCoordinate)
    (h : coords ≠ []) :
    ∃ c, nearest_coord d coords = some c ∧ c ∈ coords ∧
      (∀ y ∈ coords, distSq d c ≤ distSq d y) ∧
      (∃ pre post, coords = pre ++ c :: post ∧ ∀ z ∈ pre, distSq d c < distSq d z) ∧
      (∀ c0 ∈ coords, distSq d c0 = 0 → distSq d c = 0) ∧
      generate_run_race_data [d] coords =
        some [⟨d.date, d.driver_number, c.x_led, c.y_led⟩] := by
  match coords, h with
  | q :: qs, _ =>
    obtain ⟨hle, pre, post, hdec, hstrict⟩ := minByDist_spec d qs q
    refine ⟨minByDist d q qs, rfl, ?_, hle, ⟨pre, post, hdec, hstrict⟩, ?_, ?_⟩
    · rw [hdec]
      exact List.mem_append_right _ (List.mem_cons_self _ _)
    · intro c0 hc0 hzero
      have h1 := hle c0 hc0
      rw [hzero] at h1
      have h2 : 0 ≤ distSq d (minByDist d q qs) :=
        add_nonneg (sq_nonneg _) (sq_nonneg _)
      exact le_antisymm h1 h2
    · rfl

/-- Witness for C5 at the spec's concrete scenario: raw `(9, 1)` against the
fixed set `[(0,0), (10,0), (10,10)]`. -/
theorem c5_witness :
    ∃ c, nearest_coord ⟨9, 1, 0, 7, 1000, 0, 0⟩ [⟨0, 0⟩, ⟨10, 0⟩, ⟨10, 10⟩] = some c ∧
      c ∈ [(⟨0, 0⟩ : LedCoordinate), ⟨10, 0⟩, ⟨10, 10⟩] ∧
      (∀ y ∈ [(⟨0, 0⟩ : LedCoordinate), ⟨10, 0⟩, ⟨10, 10⟩],
        distSq ⟨9, 1, 0, 7, 1000, 0, 0⟩ c ≤ distSq ⟨9, 1, 0, 7, 1000, 0, 0⟩ y) ∧
      (∃ pre post, [(⟨0, 0⟩ : LedCoordinate), ⟨10, 0⟩, ⟨10, 10⟩] = pre ++ c :: post ∧
        ∀ z ∈ pre, distSq ⟨9, 1, 0, 7, 1000, 0, 0⟩ c < distSq ⟨9, 1, 0, 7, 1000, 0, 0⟩ z) ∧
      (∀ c0 ∈ [(⟨0, 0⟩ : LedCoordinate), ⟨10, 0⟩, ⟨10, 10⟩],
        distSq ⟨9, 1, 0, 7, 1000, 0, 0⟩ c0 = 0 → distSq ⟨9, 1, 0, 7, 1000, 0, 0⟩ c = 0) ∧
      generate_run_race_data [⟨9, 1, 0, 7, 1000, 0, 0⟩] [⟨0, 0⟩, ⟨10, 0⟩, ⟨10, 10⟩] =
        some [⟨1000, 7, c.x_led, c.y_led⟩] :=
  c5_nearest_neighbor ⟨9, 1, 0, 7, 1000, 0, 0⟩ [⟨0, 0⟩, ⟨10, 0⟩, ⟨10, 10⟩] (by decide)

theorem lookupA_insertA_self {α β : Type} [DecidableEq α] (m : List (α × β)) (k : α) (v : β) :
    lookupA (insertA m k v) k = some v := by
  induction m with
  | nil => simp [insertA, lookupA]
  | cons e t ih =>
    match e with
    | (k', v') =>
      rw [insertA]
      by_cases h : k' = k
      · rw [if_pos h, lookupA, if_pos rfl]
      · rw [if_neg h, lookupA, if_neg h]
        exact ih

theorem lookupA_insertA_ne {α β : Type} [DecidableEq α] (m : List (α × β)) (k : α) (v : β)
    (k' : α) (h : k' ≠ k) : lookupA (insertA m k v) k' = lookupA m k' := by
  induction m with
  | nil =>
    show lookupA [(k, v)] k' = lookupA [] k'
    simp only [lookupA]
    rw [if_neg (Ne.symm h)]
  | cons e t ih =>
    match e with
    | (k0, v0) =>
      rw [insertA]
      by_cases h0 : k0 = k
      · rw [if_pos h0, lookupA, lookupA, if_neg (Ne.symm h), if_neg (by rw [h0]; exact Ne.symm h)]
      · rw [if_neg h0, lookupA, lookupA]
        by_cases h1 : k0 = k'
        · rw [if_pos h1, if_pos h1]
        · rw [if_neg h1, if_neg h1]
          exact ih

theorem lookupA_insertA_isSome {α β : Type} [DecidableEq α] (m : List (α × β)) (k : α)
    (v : β) (k' : α) (h : (lookupA m k').isSome) :
    (lookupA (insertA m k v) k').isSome := by
  by_cases hk : k' = k
  · rw [hk, lookupA_insertA_self]
    rfl
  · rw [lookupA_insertA_ne m k v k' hk]
    exact h

theorem fold_positions_isSome (l : List RunRace) (m : List (Nat × (Int × Int))) (dn : Nat)
    (h : (lookupA m dn).isSome) :
    (lookupA (l.foldl (fun m rd => insertA m rd.driver_number
      (scale_f64 rd.x_led 1000000, scale_f64 rd.y_led 1000000)) m) dn).isSome := by
  induction l generalizing m with
  | nil => exact h
  | cons rd t ih =>
    rw [List.foldl_cons]
    exact ih _ (lookupA_insertA_isSome _ _ _ _ h)

theorem fold_positions_not_mem (l : List RunRace) (m : List (Nat × (Int × Int))) (dn : Nat)
    (h : ∀ rd ∈ l, rd.driver_number ≠ dn) :
    lookupA (l.foldl (fun m rd => insertA m rd.driver_number
      (scale_f64 rd.x_led 1000000, scale_f64 rd.y_led 1000000)) m) dn = lookupA m dn := by
  induction l generalizing m with
  | nil => rfl
  | cons rd t ih =>
    rw [List.foldl_cons]
    rw [ih _ (fun r hr => h r (List.mem_cons_of_mem _ hr))]
    exact lookupA_insertA_ne _ _ _ _ (fun he => h rd (List.mem_cons_self _ _) he.symm)

/-- C10: `update_led_states` rebuilds `led_states` from scratch on every tick
(the previous `led_states` value is irrelevant), never removes an entry from
`last_positions` (a driver with no event in the due prefix keeps its exact
previous last-known position), and only `reset` empties `last_positions`. -/
theorem c10_last_positions_persist :
    (∀ (app : PlotApp) (iter : List (Nat × (Int × Int))) (dn : Nat),
      (lookupA app.last_positions dn).isSome →
      (lookupA (app.update_led_states iter).last_positions dn).isSome) ∧
    (∀ (app : PlotApp) (iter : List (Nat × (Int × Int))) (dn : Nat),
      (∀ rd ∈ app.run_race_data.take app.current_index, rd.driver_number ≠ dn) →
      lookupA (app.update_led_states iter).last_positions dn =
        lookupA app.last_positions dn) ∧
    (∀ (app : PlotApp) (iter : List (Nat × (Int × Int)))
        (L : List ((Int × Int) × Color32)),
      PlotApp.update_led_states { app with led_states := L } iter =
        app.update_led_states iter) ∧
    (∀ app : PlotApp, (app.reset).last_positions = [] ∧ (app.reset).led_states = []) :=
  ⟨fun app iter dn h => fold_positions_isSome _ _ _ h,
   fun app iter dn h => fold_positions_not_mem _ _ _ h,
   fun _ _ _ => rfl,
   fun _ => ⟨rfl, rfl⟩⟩

/-- Witness for C10: driver 7's stored position survives a tick whose due
prefix only contains an event of driver 3. -/
theorem c10_witness :
    (lookupA (PlotApp.update_led_states
        ⟨[], [⟨0, 3, 5, 5⟩], 0, true, false, false, [], 1, [], [(7, (1, 2))], 1⟩
        [(3, (5000000, 5000000)), (7, (1, 2))]).last_positions 7).isSome ∧
    lookupA (PlotApp.update_led_states
        ⟨[], [⟨0, 3, 5, 5⟩], 0, true, false, false, [], 1, [], [(7, (1, 2))], 1⟩
        [(3, (5000000, 5000000)), (7, (1, 2))]).last_positions 7 =
      lookupA [(7, ((1 : Int), (2 : Int)))] 7 :=
  ⟨c10_last_positions_persist.1 _ _ 7 (by decide),
   c10_last_positions_persist.2.1
     ⟨[], [⟨0, 3, 5, 5⟩], 0, true, false, false, [], 1, [], [(7, (1, 2))], 1⟩
     [(3, (5000000, 5000000)), (7, (1, 2))] 7 (by decide)⟩

theorem mem_keys_insertA {α β : Type} [DecidableEq α] (m : List (α × β)) (k : α) (v : β)
    (a : α) : a ∈ (insertA m k v).map Prod.fst ↔ a = k ∨ a ∈ m.map Prod.fst := by
  induction m with
  | nil => simp [insertA]
  | cons e t ih =>
    match e with
    | (k0, v0) =>
      rw [insertA]
      by_cases h0 : k0 = k
      · subst h0
        simp
      · simp only [if_neg h0, List.map_cons, List.mem_cons, ih]
        tauto

theorem insertA_keys_nodup {α β : Type} [DecidableEq α] (m : List (α × β)) (k : α) (v : β)
    (h : (m.map Prod.fst).Nodup) : ((insertA m k v).map Prod.fst).Nodup := by
  induction m with
  | nil => simp [insertA]
  | cons e t ih =>
    match e with
    | (k0, v0) =>
      rw [insertA]
      simp only [List.map_cons, List.nodup_cons] at h
      by_cases h0 : k0 = k
      · rw [if_pos h0]
        simp only [List.map_cons, List.nodup_cons]
        exact ⟨by rw [← h0]; exact h.1, h.2⟩
      · rw [if_neg h0]
        simp only [List.map_cons, List.nodup_cons]
        refine ⟨?_, ih h.2⟩
        rw [mem_keys_insertA]
        rintro (rfl | hmem)
        · exact h0 rfl
        · exact h.1 hmem

theorem led_fold_keys_nodup (iter : List (Nat × (Int × Int))) (info : List DriverInfo)
    (m : List ((Int × Int) × Color32)) (h : (m.map Prod.fst).Nodup) :
    (((iter.foldl (fun m e => insertA m e.2 (color_for info e.1)) m)).map Prod.fst).Nodup := by
  induction iter generalizing m with
  | nil => exact h
  | cons e rest ih =>
    rw [List.foldl_cons]
    exact ih _ (insertA_keys_nodup _ _ _ h)

theorem led_fold_lookup_source (iter : List (Nat × (Int × Int))) (info : List DriverInfo)
    (m : List ((Int × Int) × Color32)) (pos : Int × Int) (col : Color32)
    (h : lookupA (iter.foldl (fun m e => insertA m e.2 (color_for info e.1)) m) pos
      = some col) :
    (∃ dn, (dn, pos) ∈ iter ∧ col = color_for info dn) ∨ lookupA m pos = some col := by
  induction iter generalizing m with
  | nil => exact Or.inr h
  | cons e rest ih =>
    rw [List.foldl_cons] at h
    rcases ih _ h with ⟨dn, hdn, hcol⟩ | hbase
    · exact Or.inl ⟨dn, List.mem_cons_of_mem _ hdn, hcol⟩
    · by_cases hpos : pos = e.2
      · rw [hpos, lookupA_insertA_self] at hbase
        cases hbase
        refine Or.inl ⟨e.1, ?_, rfl⟩
        rw [hpos]
        exact List.mem_cons_self _ _
      · rw [lookupA_insertA_ne _ _ _ _ hpos] at hbase
        exact Or.inr hbase

/-- C3 counterexample: two events for different drivers (1 then 2) mapping
to the identical coordinate, both inside the due prefix.  With the
admissible `HashMap` iteration order that visits driver 2's entry first, the
active map binds the coordinate to driver 1's colour — the entity of the
EARLIER event — contradicting the claim that B (driver 2) always wins. -/
theorem c3_counterexample :
    List.Perm [((2 : Nat), ((5000000 : Int), (5000000 : Int))), (1, (5000000, 5000000))]
      (fold_positions [⟨0, 1, 5, 5⟩, ⟨1, 2, 5, 5⟩] 2 []) ∧
    lookupA (PlotApp.update_led_states
        ⟨[], [⟨0, 1, 5, 5⟩, ⟨1, 2, 5, 5⟩], 0, false, false, false, driver_info_list,
          2, [], [], 1⟩
        [(2, (5000000, 5000000)), (1, (5000000, 5000000))]).led_states
      (5000000, 5000000) = some (color_for driver_info_list 1) ∧
    color_for driver_info_list 1 = (⟨30, 65, 255⟩ : Color32) ∧
    color_for driver_info_list 2 = (⟨0, 82, 255⟩ : Color32) ∧
    color_for driver_info_list 1 ≠ color_for driver_info_list 2 := by
  refine ⟨by decide, ?_, by decide, by decide, by decide⟩
  decide

/-- C3 (amended): the active map always binds at most one entity per
coordinate, but when several drivers' last-known positions coincide on one
coordinate the winner is decided by the unspecified `HashMap` iteration
order over `last_positions` (the entry visited last wins): the bound colour
is the colour of SOME driver whose last-known position is that coordinate —
not necessarily the one whose event is later in Timeline order. -/
theorem c3_coordinate_winner (app : PlotApp) (iter : List (Nat × (Int × Int)))
    (hperm : iter.Perm (fold_positions app.run_race_data app.current_index
      app.last_positions)) :
    (((app.update_led_states iter).led_states).map Prod.fst).Nodup ∧
    ∀ pos col, lookupA (app.update_led_states iter).led_states pos = some col →
      ∃ dn, (dn, pos) ∈ fold_positions app.run_race_data app.current_index
          app.last_positions ∧
        col = color_for app.driver_info dn := by
  constructor
  · exact led_fold_keys_nodup iter app.driver_info [] (by simp)
  · intro pos col h
    rcases led_fold_lookup_source iter app.driver_info [] pos col h with ⟨dn, hdn, hcol⟩ | hbase
    · exact ⟨dn, hperm.subset hdn, hcol⟩
    · cases hbase

/-- Witness for C3 (amended) at the counterexample state. -/
theorem c3_witness :
    (((PlotApp.update_led_states
        ⟨[], [⟨0, 1, 5, 5⟩, ⟨1, 2, 5, 5⟩], 0, false, false, false, driver_info_list,
          2, [], [], 1⟩
        [(2, (5000000, 5000000)), (1, (5000000, 5000000))]).led_states).map Prod.fst).Nodup ∧
    ∀ pos col, lookupA (PlotApp.update_led_states
        ⟨[], [⟨0, 1, 5, 5⟩, ⟨1, 2, 5, 5⟩], 0, false, false, false, driver_info_list,
          2, [], [], 1⟩
        [(2, (5000000, 5000000)), (1, (5000000, 5000000))]).led_states pos = some col →
      ∃ dn, (dn, pos) ∈ fold_positions [⟨0, 1, 5, 5⟩, ⟨1, 2, 5, 5⟩] 2 [] ∧
        col = color_for driver_info_list dn :=
  c3_coordinate_winner
    ⟨[], [⟨0, 1, 5, 5⟩, ⟨1, 2, 5, 5⟩], 0, false, false, false, driver_info_list,
      2, [], [], 1⟩
    [(2, (5000000, 5000000)), (1, (5000000, 5000000))] (by decide)

/-- C7: when the candidate slice at the current scan position fails to
parse, the scan loop stops immediately — it emits nothing further and does
not advance `start_pos` past the failed slice — and `process_chunk` then
retains the entire unconsumed remainder of the buffer verbatim as the
pending bytes for the next call (the function is total: the Rust body has no
fallible operation, every call returns `Ok`). -/
theorem c7_parse_failure_retention :
    (∀ (parse : List Char → Option LocationData) (coords : List LedCoordinate)
        (maxRows : Nat) (s : List Char) (p rows : Nat) (acc : List RunRace) (e : Nat),
      findMarker (s.drop p) = some e →
      parse (candidate_slice s p e) = none →
      scan parse coords maxRows s p rows acc = (acc, p)) ∧
    (∀ (parse : List Char → Option LocationData) (coords : List LedCoordinate)
        (maxRows : Nat) (buffer chunk : List Char),
      parse ((buffer ++ chunk).drop
        (scan parse coords maxRows (buffer ++ chunk) 0 0 []).2) = none →
      process_chunk parse coords maxRows buffer chunk =
        ((scan parse coords maxRows (buffer ++ chunk) 0 0 []).1,
         (buffer ++ chunk).drop (scan parse coords maxRows (buffer ++ chunk) 0 0 []).2)) := by
  constructor
  · intro parse coords maxRows s p rows acc e h hp
    exact scan_stop_parse_failure parse coords maxRows s p rows acc e h hp
  · intro parse coords maxRows buffer chunk h
    simp only [process_chunk]
    rw [h]

/-- Witness for C7: the fragment cut mid-record after a complete first slice
that fails schema validation (`x` present, every other field missing): the
scan stops at offset 0 and the whole buffer is retained. -/
theorem c7_witness :
    scan parseLocC led_coordinate_list 500
      ('{' :: "\"x\":1".toList ++ '}' :: ',' :: '{' :: "\"x\":2".toList) 0 0 [] = ([], 0) ∧
    process_chunk parseLocC led_coordinate_list 500 []
      ('{' :: "\"x\":1".toList ++ '}' :: ',' :: '{' :: "\"x\":2".toList) =
      ([], '{' :: "\"x\":1".toList ++ '}' :: ',' :: '{' :: "\"x\":2".toList) := by
  have h1 : scan parseLocC led_coordinate_list 500
      ('{' :: "\"x\":1".toList ++ '}' :: ',' :: '{' :: "\"x\":2".toList) 0 0 [] = ([], 0) :=
    c7_parse_failure_retention.1 parseLocC led_coordinate_list 500
      ('{' :: "\"x\":1".toList ++ '}' :: ',' :: '{' :: "\"x\":2".toList) 0 0 [] 6
      (by decide) (by decide)
  refine ⟨h1, ?_⟩
  have h2 := c7_parse_failure_retention.2 parseLocC led_coordinate_list 500 []
    ('{' :: "\"x\":1".toList ++ '}' :: ',' :: '{' :: "\"x\":2".toList)
    (by rw [List.nil_append, h1]; decide)
  rw [List.nil_append, h1] at h2
  simpa using h2

/-- C6 counterexample: a buffer holding a schema-invalid first record
followed by a fully well-formed record and its boundary marker.  The claim
predicts the decoder skips to the next boundary and emits the valid record;
the code instead breaks out of the scan loop at the failure, emits nothing,
and retains the whole buffer. -/
theorem c6_counterexample :
    findMarker ('[' :: '{' :: "\"x\":1".toList ++ '}' :: ',' :: '{' ::
      ("\"x\":2,\"y\":3,\"z\":4,\"driver_number\":5,\"date\":\"6\",\"session_key\":7,\"meeting_key\":8").toList
      ++ ['}', ']']) = some 7 ∧
    parseLocC ('{' ::
      ("\"x\":2,\"y\":3,\"z\":4,\"driver_number\":5,\"date\":\"6\",\"session_key\":7,\"meeting_key\":8").toList
      ++ ['}']) = some ⟨2, 3, 4, 5, 6, 7, 8⟩ ∧
    process_chunk parseLocC led_coordinate_list 500 []
      ('[' :: '{' :: "\"x\":1".toList ++ '}' :: ',' :: '{' ::
        ("\"x\":2,\"y\":3,\"z\":4,\"driver_number\":5,\"date\":\"6\",\"session_key\":7,\"meeting_key\":8").toList
        ++ ['}', ']']) =
      ([], '[' :: '{' :: "\"x\":1".toList ++ '}' :: ',' :: '{' ::
        ("\"x\":2,\"y\":3,\"z\":4,\"driver_number\":5,\"date\":\"6\",\"session_key\":7,\"meeting_key\":8").toList
        ++ ['}', ']']) := by
  refine ⟨by decide, by decide, ?_⟩
  have hs := scan_stop_parse_failure parseLocC led_coordinate_list 500
    ('[' :: '{' :: "\"x\":1".toList ++ '}' :: ',' :: '{' ::
      ("\"x\":2,\"y\":3,\"z\":4,\"driver_number\":5,\"date\":\"6\",\"session_key\":7,\"meeting_key\":8").toList
      ++ ['}', ']']) 0 0 [] 7 (by decide) (by decide)
  simp only [process_chunk, List.nil_append]
  rw [hs]
  simp only [List.drop_zero]
  rw [(by decide : parseLocC ('[' :: '{' :: "\"x\":1".toList ++ '}' :: ',' :: '{' ::
    ("\"x\":2,\"y\":3,\"z\":4,\"driver_number\":5,\"date\":\"6\",\"session_key\":7,\"meeting_key\":8").toList
    ++ ['}', ']']) = none)]

/-- C6 (amended): a candidate slice that fails schema validation is treated
exactly like an incomplete slice: the decoder stops scanning at that slice
(it does not skip to the next boundary marker), reports no error, and
retains the failed slice together with everything after it for the next
call; decoding of the entity stream resumes only by retrying from the same
offset once more bytes arrive. -/
theorem c6_schema_failure_stops (parse : List Char → Option LocationData)
    (coords : List LedCoordinate) (maxRows : Nat) (buffer chunk : List Char) (e : Nat)
    (h1 : findMarker (buffer ++ chunk) = some e)
    (h2 : parse (candidate_slice (buffer ++ chunk) 0 e) = none)
    (h3 : parse (buffer ++ chunk) = none) :
    process_chunk parse coords maxRows buffer chunk = ([], buffer ++ chunk) := by
  have hs : scan parse coords maxRows (buffer ++ chunk) 0 0 [] = ([], 0) :=
    scan_stop_parse_failure parse coords maxRows (buffer ++ chunk) 0 0 [] e
      (by rw [List.drop_zero]; exact h1) h2
  simp only [process_chunk]
  rw [hs]
  simp only [List.drop_zero]
  rw [h3]

/-- Witness for C6 (amended): a schema-invalid first slice (`y` missing)
followed by a split second record. -/
theorem c6_witness :
    process_chunk parseLocC led_coordinate_list 500 ('{' :: "\"x\":1".toList)
      ('}' :: ',' :: '{' :: "\"x\":2".toList) =
      ([], '{' :: "\"x\":1".toList ++ '}' :: ',' :: '{' :: "\"x\":2".toList) :=
  c6_schema_failure_stops parseLocC led_coordinate_list 500
    ('{' :: "\"x\":1".toList) ('}' :: ',' :: '{' :: "\"x\":2".toList) 6
    (by decide) (by decide) (by decide)

/-- C1: evaluation of the decoder at the failing input — the serialization
of a well-formed one-record JSON array, fed as a single fragment (the K = 1
partition).  The record itself is well-formed (it parses as a lone object),
but the array contains no `"},{"` boundary marker, so the scan loop emits
nothing, and the trailing-object check (`src/main.rs` lines 544-549, whose
comment says it processes the remaining complete object) also fails because
the remainder still carries the array brackets; the call emits 0 records
instead of the 1 the claim requires, and every later call retains the same
unparseable buffer.  For N ≥ 2 records the same slip drops the final record:
after the last marker is consumed, `start_pos` sits past the record's
opening brace, so the remainder `body}]` never parses. -/
theorem c1_trailing_record_never_emitted :
    parseLocC ('{' ::
      ("\"x\":1,\"y\":2,\"z\":3,\"driver_number\":4,\"date\":\"5\",\"session_key\":6,\"meeting_key\":7").toList
      ++ ['}']) = some ⟨1, 2, 3, 4, 5, 6, 7⟩ ∧
    findMarker ('[' :: '{' ::
      ("\"x\":1,\"y\":2,\"z\":3,\"driver_number\":4,\"date\":\"5\",\"session_key\":6,\"meeting_key\":7").toList
      ++ ['}', ']']) = none ∧
    process_chunk parseLocC led_coordinate_list 500 []
      ('[' :: '{' ::
        ("\"x\":1,\"y\":2,\"z\":3,\"driver_number\":4,\"date\":\"5\",\"session_key\":6,\"meeting_key\":7").toList
        ++ ['}', ']']) =
      ([], '[' :: '{' ::
        ("\"x\":1,\"y\":2,\"z\":3,\"driver_number\":4,\"date\":\"5\",\"session_key\":6,\"meeting_key\":7").toList
        ++ ['}', ']']) ∧
    feed_fragments parseLocC led_coordinate_list 500 []
      ['[' :: '{' ::
        ("\"x\":1,\"y\":2,\"z\":3,\"driver_number\":4,\"date\":\"5\",\"session_key\":6,\"meeting_key\":7").toList
        ++ ['}', ']']] =
      ([], '[' :: '{' ::
        ("\"x\":1,\"y\":2,\"z\":3,\"driver_number\":4,\"date\":\"5\",\"session_key\":6,\"meeting_key\":7").toList
        ++ ['}', ']']) := by
  have hpc : process_chunk parseLocC led_coordinate_list 500 []
      ('[' :: '{' ::
        ("\"x\":1,\"y\":2,\"z\":3,\"driver_number\":4,\"date\":\"5\",\"session_key\":6,\"meeting_key\":7").toList
        ++ ['}', ']']) =
      ([], '[' :: '{' ::
        ("\"x\":1,\"y\":2,\"z\":3,\"driver_number\":4,\"date\":\"5\",\"session_key\":6,\"meeting_key\":7").toList
        ++ ['}', ']']) := by
    have hs := scan_stop_no_marker parseLocC led_coordinate_list 500
      ('[' :: '{' ::
        ("\"x\":1,\"y\":2,\"z\":3,\"driver_number\":4,\"date\":\"5\",\"session_key\":6,\"meeting_key\":7").toList
        ++ ['}', ']']) 0 0 [] (by decide)
    simp only [process_chunk, List.nil_append]
    rw [hs]
    simp only [List.drop_zero]
    rw [(by decide : parseLocC ('[' :: '{' ::
      ("\"x\":1,\"y\":2,\"z\":3,\"driver_number\":4,\"date\":\"5\",\"session_key\":6,\"meeting_key\":7").toList
      ++ ['}', ']']) = none)]
  refine ⟨by decide, by decide, hpc, ?_⟩
  simp only [feed_fragments]
  rw [hpc]
  rfl
